import Mathlib

/-!
Shallow embedding of the panel-fitting core of the astrohack repository
(`astrohack/_classes/base_panel.py` and `astrohack/_classes/antenna_surface.py`),
together with theorems settling the specification claims about it.

Python floats are modelled as real numbers; numpy arrays over the mask as
lists; the external scipy `curve_fit` solver and the linear-algebra helpers
that live outside the embedded sources are modelled as oracle parameters.
-/

open Real

namespace Astrohack

noncomputable section

/-- A collected point, mirroring the 5-element sample/margin tuples
`[xcoor, ycoor, xidx, yidx, value]` handed to `BasePanel.add_sample` and
`BasePanel.add_margin`. -/
structure Point where
  x : ℝ
  y : ℝ
  ix : ℝ
  iy : ℝ
  v : ℝ

/-- The seven entries of `panelkinds` in `base_panel.py`. -/
inductive PanelKind where
  | rigid
  | mean
  | xypara
  | rotpara
  | corpara
  | lstsqr
  | colstsq
deriving DecidableEq, Repr

/-- Parameter count set by the `_associate_*` methods for each kind
(`_associate_rigid`: 3, `_associate_mean`: 1, `_associate_scipy` with
`_xyaxes_paraboloid`: 3, with `_rotated_paraboloid`: 4, with
`_corotated_paraboloid`: 3, `_associate_least_squares`: 9,
`_associate_corotated_lst_sq`: 3). -/
def npar : PanelKind → Nat
  | .rigid => 3
  | .mean => 1
  | .xypara => 3
  | .rotpara => 4
  | .corpara => 3
  | .lstsqr => 9
  | .colstsq => 3

/-- State of a `BasePanel`.  `kind` is the constructor argument (the string
stored in `self.kind`, never mutated); `assoc` records which strategy the
`_solve_sub` / `corr_point` / `npar` attributes are currently associated to:
it equals `kind` after `__init__` and becomes `mean` when `_fallback_solve`
calls `_associate_mean`.  `par` is `none` until a solver assigns it. -/
structure BasePanel where
  kind : PanelKind
  assoc : PanelKind
  center : ℝ × ℝ
  zeta : ℝ
  samples : List Point
  margins : List Point
  par : Option (List ℝ)
  solved : Bool

/-- `BasePanel.__init__`: empty sample and margin lists, `solved = False`,
parameters unset, method association equal to the requested kind; a missing
`center` defaults to the origin and a missing `zeta` to `0` (here the caller
passes the defaulted values directly). -/
def mkPanel (kind : PanelKind) (center : ℝ × ℝ) (zeta : ℝ) : BasePanel :=
  { kind := kind, assoc := kind, center := center, zeta := zeta,
    samples := [], margins := [], par := none, solved := false }

/-- `BasePanel.add_sample`: append a point to the fit list. -/
def addSample (p : BasePanel) (pt : Point) : BasePanel :=
  { p with samples := p.samples ++ [pt] }

/-- `BasePanel.add_margin`: append a point to the correction-only list. -/
def addMargin (p : BasePanel) (pt : Point) : BasePanel :=
  { p with margins := p.margins ++ [pt] }

/-- The grand mean `np.mean(self.samples)` computes when `self.samples` is a
list of 5-element tuples: numpy flattens the `n × 5` array and averages all
`5·n` entries (coordinates, pixel indices and values alike). -/
def npMeanSamples (samples : List Point) : ℝ :=
  (samples.map (fun s => s.x + s.y + s.ix + s.iy + s.v)).sum
    / (5 * samples.length)

/-- The arithmetic mean of the sample values alone (the fifth tuple entry),
which is what the docstring of `_solve_mean` ("a simple mean of its points Z
deviation") and the repository test `test_mean_kind` describe. -/
def meanOfValues (samples : List Point) : ℝ :=
  (samples.map Point.v).sum / samples.length

/-- `BasePanel._solve_mean`: when samples exist, `self.par =
[np.mean(self.samples)]` — note the argument is the whole tuple list — else
`self.par = [0]`; sets `solved = True`. -/
def solveMean (p : BasePanel) : BasePanel :=
  if 0 < p.samples.length then
    { p with par := some [npMeanSamples p.samples], solved := true }
  else
    { p with par := some [0], solved := true }

/-- `BasePanel._fallback_solve`: re-associate to the mean strategy
(`_associate_mean`) and run its solver. -/
def fallbackSolve (p : BasePanel) : BasePanel :=
  solveMean { p with assoc := .mean }

/-- The three escalating `maxfev` tiers tried by `BasePanel._solve_scipy`. -/
def maxfevs : List Nat := [100000, 1000000, 10000000]

/-- `BasePanel._solve_scipy`: try `scipy.optimize.curve_fit` (modelled by the
oracle `cf`, returning `none` where the library raises `RuntimeError` for
non-convergence) with each `maxfev` tier in order; the first success assigns
`self.par` and sets `solved = True` and breaks; if every tier fails the
method just returns, leaving the panel untouched. -/
def solveScipy (cf : Nat → Option (List ℝ)) (p : BasePanel) : BasePanel :=
  match maxfevs.findSome? cf with
  | some pars => { p with par := some pars, solved := true }
  | none => p

/-- Which kinds dispatch `_solve_sub` to `_solve_scipy`
(`_associate_scipy` is used for `xyparaboloid`, `rotatedparaboloid` and
`corotatedparaboloid`). -/
def isScipyKind : PanelKind → Bool
  | .xypara | .rotpara | .corpara => true
  | _ => false

/-- `LinAlgFail` marks an `np.linalg.LinAlgError` escaping a solver. -/
def LinAlgFail : Type := Unit

/-- `BasePanel._solve_sub` dispatch: the mean and scipy solvers are embedded
in full; the rigid and least-squares solvers call
`_gauss_elimination_numpy` / `_least_squares_fit` from
`astrohack._utils._linear_algebra`, a module that is not among the embedded
sources, so the linear-algebra result is supplied by the oracle `la` applied
to the sample list (those solvers read only `self.samples`); an
`Except.error` is the `np.linalg.LinAlgError` that `solve` catches.  On
success the solver stores the parameters and sets `solved = True`. -/
def solveSub (cf : Nat → Option (List ℝ))
    (la : PanelKind → List Point → Except LinAlgFail (List ℝ))
    (p : BasePanel) : Except LinAlgFail BasePanel :=
  match p.assoc with
  | .mean => .ok (solveMean p)
  | .xypara => .ok (solveScipy cf p)
  | .rotpara => .ok (solveScipy cf p)
  | .corpara => .ok (solveScipy cf p)
  | k =>
    match la k p.samples with
    | .ok pars => .ok { p with par := some pars, solved := true }
    | .error e => .error e

/-- `BasePanel.solve`: if `len(self.samples) < self.npar`, fall back to the
mean fit at once; otherwise run the associated solver and fall back only on
an `np.linalg.LinAlgError`. -/
def solve (cf : Nat → Option (List ℝ))
    (la : PanelKind → List Point → Except LinAlgFail (List ℝ))
    (p : BasePanel) : BasePanel :=
  if p.samples.length < npar p.assoc then
    fallbackSolve p
  else
    match solveSub cf la p with
    | .ok q => q
    | .error _ => fallbackSolve p

/-- `self.par[i]` read out of the optional parameter vector (out-of-range
reads, which raise in Python, are given the junk value 0; no theorem below
depends on that value). -/
def parAt (p : BasePanel) (i : Nat) : ℝ :=
  (p.par.getD []).getD i 0

/-- `BasePanel._xyaxes_paraboloid`: `ucurv·u² + vcurv·v² + zoff` with
`u = x - xc`, `v = y - yc`. -/
def xyaxesParaboloid (p : BasePanel) (coords : ℝ × ℝ)
    (ucurv vcurv zoff : ℝ) : ℝ :=
  let u := coords.1 - p.center.1
  let v := coords.2 - p.center.2
  ucurv * u ^ 2 + vcurv * v ^ 2 + zoff

/-- `BasePanel._rotated_paraboloid`: the same paraboloid with the coordinate
offsets combined through the angle `theta` exactly as in the source
(`u = (x-xc)·cos θ + (y-yc)·sin θ`, `v = (x-xc)·sin θ + (y-yc)·cos θ`). -/
def rotatedParaboloid (p : BasePanel) (coords : ℝ × ℝ)
    (ucurv vcurv zoff theta : ℝ) : ℝ :=
  let u := (coords.1 - p.center.1) * Real.cos theta
    + (coords.2 - p.center.2) * Real.sin theta
  let v := (coords.1 - p.center.1) * Real.sin theta
    + (coords.2 - p.center.2) * Real.cos theta
  ucurv * u ^ 2 + vcurv * v ^ 2 + zoff

/-- `BasePanel._corotated_paraboloid`: same transform with the fixed panel
center angle `self.zeta` in place of a fitted `theta`. -/
def corotatedParaboloid (p : BasePanel) (coords : ℝ × ℝ)
    (ucurv vcurv zoff : ℝ) : ℝ :=
  let u := (coords.1 - p.center.1) * Real.cos p.zeta
    + (coords.2 - p.center.2) * Real.sin p.zeta
  let v := (coords.1 - p.center.1) * Real.sin p.zeta
    + (coords.2 - p.center.2) * Real.cos p.zeta
  ucurv * u ^ 2 + vcurv * v ^ 2 + zoff

/-- `BasePanel._corr_point_corotated_lst_sq`: `par[0]·u² + par[1]·v² + par[2]`
with `u, v` built from `self.zeta` and `self.center` as in the source. -/
def corrPointCorotatedLstSq (p : BasePanel) (xcoor ycoor : ℝ) : ℝ :=
  let usq := ((xcoor - p.center.1) * Real.cos p.zeta
    + (ycoor - p.center.2) * Real.sin p.zeta) ^ 2
  let vsq := ((xcoor - p.center.1) * Real.sin p.zeta
    + (ycoor - p.center.2) * Real.cos p.zeta) ^ 2
  parAt p 0 * usq + parAt p 1 * vsq + parAt p 2

/-- `BasePanel._corr_point_least_squares_paraboloid`:
`a·x²y² + b·x²y + c·xy² + d·x² + e·y² + g·xy + h·x + i·y + j`. -/
def corrPointLeastSquaresParaboloid (p : BasePanel) (xcoor ycoor : ℝ) : ℝ :=
  let xsq := xcoor ^ 2
  let ysq := ycoor ^ 2
  parAt p 0 * xsq * ysq + parAt p 1 * xsq * ycoor + parAt p 2 * ysq * xcoor
    + parAt p 3 * xsq + parAt p 4 * ysq + parAt p 5 * xcoor * ycoor
    + parAt p 6 * xcoor + parAt p 7 * ycoor + parAt p 8

/-- `BasePanel._corr_point_rigid`: `x·par[0] + y·par[1] + par[2]`. -/
def corrPointRigid (p : BasePanel) (xcoor ycoor : ℝ) : ℝ :=
  xcoor * parAt p 0 + ycoor * parAt p 1 + parAt p 2

/-- `BasePanel._corr_point_mean`: the constant `par[0]`. -/
def corrPointMean (p : BasePanel) (_xcoor _ycoor : ℝ) : ℝ :=
  parAt p 0

/-- `BasePanel._corr_point_scipy`: evaluate the associated fitting function
at the point with the fitted parameters. -/
def corrPointScipy (p : BasePanel) (xcoor ycoor : ℝ) : ℝ :=
  match p.assoc with
  | .rotpara => rotatedParaboloid p (xcoor, ycoor) (parAt p 0) (parAt p 1)
      (parAt p 2) (parAt p 3)
  | .corpara => corotatedParaboloid p (xcoor, ycoor) (parAt p 0) (parAt p 1)
      (parAt p 2)
  | _ => xyaxesParaboloid p (xcoor, ycoor) (parAt p 0) (parAt p 1) (parAt p 2)

/-- The `corr_point` attribute: dispatch on the current method
association. -/
def corrPoint (p : BasePanel) (xcoor ycoor : ℝ) : ℝ :=
  match p.assoc with
  | .mean => corrPointMean p xcoor ycoor
  | .rigid => corrPointRigid p xcoor ycoor
  | .lstsqr => corrPointLeastSquaresParaboloid p xcoor ycoor
  | .colstsq => corrPointCorotatedLstSq p xcoor ycoor
  | _ => corrPointScipy p xcoor ycoor

/-- `BasePanel.get_corrections`: refuse unsolved panels; otherwise build one
`(xidx, yidx, corr_point(xcoor, ycoor))` triple per collected point, the
fit samples first and the margin points after them. -/
def getCorrections (p : BasePanel) :
    Except String (List (ℝ × ℝ × ℝ)) :=
  if p.solved = false then
    .error "Cannot correct a panel that is not solved"
  else
    .ok ((p.samples ++ p.margins).map
      (fun s => (s.ix, s.iy, corrPoint p s.x s.y)))

/-- Modelled from the spec: the constant `twopi` imported from the missing
module `astrohack._utils._globals`; as its name states it is `2π`. -/
def twopi : ℝ := 2 * Real.pi

/-- Modelled from the spec: the constant `fourpi` imported from the missing
module `astrohack._utils._globals`; as its name states it is `4π`. -/
def fourpi : ℝ := 4 * Real.pi

/-- The common factor of the two phase/deviation conversions: `acoeff ·
sqrt(rad² + bcoeff)` with `acoeff = (wavel/twopi)/(4·focus)` and
`bcoeff = 4·focus²`, as built in `AntennaSurface._phase_to_deviation` and
`AntennaSurface._deviation_to_phase`. -/
def convFactor (wavel focus rad : ℝ) : ℝ :=
  (wavel / twopi) / (4 * focus) * Real.sqrt (rad ^ 2 + 4 * focus ^ 2)

/-- `AntennaSurface._phase_to_deviation` at one pixel: `acoeff · phase ·
sqrt(rad² + bcoeff)` with `acoeff = (self.wavel/twopi)/(4·self.telescope.focus)`
and `bcoeff = 4·self.telescope.focus²`. -/
def phaseToDeviation (wavel focus rad phase : ℝ) : ℝ :=
  (wavel / twopi) / (4 * focus) * phase * Real.sqrt (rad ^ 2 + 4 * focus ^ 2)

/-- `AntennaSurface._deviation_to_phase` at one pixel: `deviation /
(acoeff · sqrt(rad² + bcoeff))` with the same two coefficients. -/
def deviationToPhase (wavel focus rad deviation : ℝ) : ℝ :=
  deviation / ((wavel / twopi) / (4 * focus) * Real.sqrt (rad ^ 2 + 4 * focus ^ 2))

/-- The claimed formula of the spec, stated verbatim for comparison with the
code `phaseToDeviation`: `(wavelength/(4π·4·focus)) · phase ·
sqrt(radius² + (4·focus)²)`. -/
def specPhaseToDeviation (wavel focus rad phase : ℝ) : ℝ :=
  wavel / (4 * Real.pi * (4 * focus)) * phase
    * Real.sqrt (rad ^ 2 + (4 * focus) ^ 2)

/-- One pixel of the amplitude/radius/deviation stack that
`AntennaSurface._build_ring_mask` consumes; `devIsNaN` marks a NaN entry of
the deviation image. -/
structure Pixel where
  amp : ℝ
  rad : ℝ
  devIsNaN : Bool

/-- `AntennaSurface._build_ring_mask` at one pixel: the chain
`np.where(amp < cut, False, True)`, then `np.where(rad > inlim, mask, False)`,
then `np.where(rad < oulim, mask, False)`, then
`np.where(isnan(deviation), False, mask)`, with
`cut = cutoff · max(amp)` from `__init__`. -/
def buildRingMask (cut inlim oulim : ℝ) (px : Pixel) : Bool :=
  let m0 : Bool := if px.amp < cut then false else true
  let m1 : Bool := if px.rad > inlim then m0 else false
  let m2 : Bool := if px.rad < oulim then m1 else false
  if px.devIsNaN then false else m2

/-- The claimed mask predicate of the spec, stated verbatim for comparison:
amplitude ≥ cutoff·max AND inner-limit ≤ radius ≤ outer-limit (boundary radii
included) AND deviation not NaN. -/
def specMask (cut inlim oulim : ℝ) (px : Pixel) : Prop :=
  cut ≤ px.amp ∧ inlim ≤ px.rad ∧ px.rad ≤ oulim ∧ px.devIsNaN = false

/-- `AntennaSurface._gains_array` before the final `convert_to_db` calls:
`thgain = fourpi · (1000·reso/wavel)²` and `gain = thgain ·
sqrt((Σ cos arr[mask])² + (Σ sin arr[mask])²) / Σ mask`; `phases` is the list
of phase values at the masked pixels, so `Σ mask` is its length.  Returns
the `(gain, thgain)` pair that the code feeds to `convert_to_db`. -/
def gainsArray (reso wavel : ℝ) (phases : List ℝ) : ℝ × ℝ :=
  let thgain := fourpi * (1000 * reso / wavel) ^ 2
  let gain := thgain * Real.sqrt ((phases.map Real.cos).sum ^ 2
    + (phases.map Real.sin).sum ^ 2) / phases.length
  (gain, thgain)

/-- The magnitude of the mean complex phasor `|mean(exp(i·phase))|` over the
masked pixels, written through the real and imaginary parts of the sum. -/
def meanPhasorAbs (phases : List ℝ) : ℝ :=
  Real.sqrt ((phases.map Real.cos).sum ^ 2 + (phases.map Real.sin).sum ^ 2)
    / phases.length

/-- The sum of the complex phasors `exp(i·phase)` over the masked pixels. -/
def phasorSum (phases : List ℝ) : ℂ :=
  (phases.map fun t : ℝ => Complex.exp ((t : ℂ) * Complex.I)).sum

/-- The state of an `AntennaSurface` that `gains`, `fit_surface` and
`correct_surface` read and write: the masked phase list, the masked residual
phase list (meaningful once `residuals` is set), the optional
residual/correction arrays (`None` until `correct_surface` fills them), the
panel collection, the `solved` flag set by `fit_surface`, and the scalar
metadata `reso`/`wavel`. -/
structure SurfaceState where
  phases : List ℝ
  phaseResiduals : List ℝ
  residuals : Option (List (ℝ × ℝ × ℝ))
  corrections : Option (List (ℝ × ℝ × ℝ))
  panels : List BasePanel
  solved : Bool
  reso : ℝ
  wavel : ℝ

/-- `AntennaSurface.gains`: compute `_gains_array` on the input phase; when
`self.residuals is None` return just that pair, otherwise also compute it on
the residual phase and return both pairs. -/
def gains (s : SurfaceState) : (ℝ × ℝ) ⊕ ((ℝ × ℝ) × (ℝ × ℝ)) :=
  match s.residuals with
  | none => .inl (gainsArray s.reso s.wavel s.phases)
  | some _ => .inr (gainsArray s.reso s.wavel s.phases,
      gainsArray s.reso s.wavel s.phaseResiduals)

/-- `AntennaSurface.fit_surface`: call `solve` on every panel, then set
`self.solved = True`. -/
def fitSurface (cf : Nat → Option (List ℝ))
    (la : PanelKind → List Point → Except LinAlgFail (List ℝ))
    (s : SurfaceState) : SurfaceState :=
  { s with panels := s.panels.map (solve cf la), solved := true }

/-- The message of the guard exception in `AntennaSurface.correct_surface`. -/
def unsolvedSurfaceMsg : String :=
  "Panels must be fitted before atempting a correction"

/-- The per-panel loop of `AntennaSurface.correct_surface`: call
`panel.get_corrections()` on each panel in turn, propagating the exception a
panel raises when it is not solved. -/
def gatherCorrections : List BasePanel →
    Except String (List (List (ℝ × ℝ × ℝ)))
  | [] => .ok []
  | p :: ps =>
    match getCorrections p with
    | .error e => .error e
    | .ok c =>
      match gatherCorrections ps with
      | .error e => .error e
      | .ok cs => .ok (c :: cs)

/-- `AntennaSurface.correct_surface`: raise the unsolved-surface exception
when `self.solved` is false (leaving the state untouched — on the error path
no correction or residual is ever assigned); otherwise gather each panel
corrections and fill the `corrections` array with the negated correction
values and the `residuals` array with the per-pixel corrected triples, as the
write loop does. -/
def correctSurface (s : SurfaceState) : Except String SurfaceState :=
  if s.solved = false then
    .error unsolvedSurfaceMsg
  else
    match gatherCorrections s.panels with
    | .error e => .error e
    | .ok corrs =>
      .ok { s with
        corrections := some ((corrs.flatten).map
          (fun t => (t.1, t.2.1, -t.2.2))),
        residuals := some corrs.flatten }

/-- A scipy oracle on which `curve_fit` never converges: every `maxfev` tier
ends in the `RuntimeError` branch. -/
def cfFail : Nat → Option (List ℝ) := fun _ => none

/-- A trivial linear-algebra oracle, used where the rigid/least-squares path
is not reached. -/
def laOk : PanelKind → List Point → Except LinAlgFail (List ℝ) :=
  fun _ _ => .ok []

/-- A mean-kind panel holding the single sample
`(xcoor 0, ycoor 0, xidx 0, yidx 0, value 5)`. -/
def meanBugPanel : BasePanel :=
  addSample (mkPanel .mean (0, 0) 0) ⟨0, 0, 0, 0, 5⟩

/-- A rigid-kind panel (npar 3) holding only two samples. -/
def deficitPanel : BasePanel :=
  addSample (addSample (mkPanel .rigid (0, 0) 0) ⟨0, 0, 0, 0, 1⟩)
    ⟨1, 0, 1, 0, 1⟩

/-- An xyparaboloid-kind panel (npar 3) holding exactly three samples. -/
def stuckPanel : BasePanel :=
  addSample (addSample (addSample (mkPanel .xypara (0, 0) 0)
    ⟨0, 0, 0, 0, 1⟩) ⟨1, 0, 1, 0, 2⟩) ⟨0, 1, 0, 1, 3⟩

/-- An antenna-surface state fresh out of construction: nothing solved, no
residual or correction arrays, no panels collected yet. -/
def freshSurface : SurfaceState :=
  { phases := [], phaseResiduals := [], residuals := none,
    corrections := none, panels := [], solved := false, reso := 1, wavel := 1 }

/-- The fresh surface with the `solved` flag set, as `fit_surface` leaves
it. -/
def fittedSurface : SurfaceState :=
  { freshSurface with solved := true }

/-- A surface state on which residual arrays exist, as after
`correct_surface`. -/
def correctedSurface : SurfaceState :=
  { freshSurface with residuals := some [], solved := true }

end

/-! ## Helper lemmas -/

theorem solveMean_solved (p : BasePanel) : (solveMean p).solved = true := by
  unfold solveMean
  split <;> rfl

theorem solveMean_assoc (p : BasePanel) : (solveMean p).assoc = p.assoc := by
  unfold solveMean
  split <;> rfl

theorem solveMean_par (p : BasePanel) :
    (solveMean p).par
      = some [if 0 < p.samples.length then npMeanSamples p.samples else 0] := by
  unfold solveMean
  split <;> simp_all

theorem solve_of_deficit (cf : Nat → Option (List ℝ))
    (la : PanelKind → List Point → Except LinAlgFail (List ℝ))
    (p : BasePanel) (h : p.samples.length < npar p.assoc) :
    solve cf la p = fallbackSolve p := by
  unfold solve
  simp [h]

/-! ## Claim theorems -/

/-- C10: the co-rotated paraboloid model is the rotated paraboloid model with
the angle fixed to the panel center angle zeta, and the co-rotated
least-squares correction evaluates the very same `a·u² + b·v² + c` model with
the identical `(u, v)` transform. -/
theorem corotated_models_agree (p : BasePanel) (coords : ℝ × ℝ)
    (ucurv vcurv zoff xcoor ycoor : ℝ) :
    corotatedParaboloid p coords ucurv vcurv zoff
      = rotatedParaboloid p coords ucurv vcurv zoff p.zeta
    ∧ corrPointCorotatedLstSq p xcoor ycoor
      = corotatedParaboloid p (xcoor, ycoor) (parAt p 0) (parAt p 1)
          (parAt p 2) :=
  ⟨rfl, rfl⟩

/-- C1: `_solve_mean` passes the whole 5-element sample tuples to `np.mean`,
so on the single sample `(0, 0, 0, 0, 5)` the fitted parameter is the grand
mean 1 of all tuple entries, not the mean 5 of the sample values that the
claim (and the method docstring and the repository test `test_mean_kind`)
describe. -/
theorem solve_mean_grand_mean_bug :
    (solve cfFail laOk meanBugPanel).par = some [1]
    ∧ meanOfValues meanBugPanel.samples = 5
    ∧ (1 : ℝ) ≠ 5 := by
  refine ⟨?_, ?_, by norm_num⟩
  · show (solveMean meanBugPanel).par = some [1]
    rw [solveMean_par]
    norm_num [meanBugPanel, addSample, mkPanel, npMeanSamples]
  · norm_num [meanOfValues, meanBugPanel, addSample, mkPanel]

/-- C4: a panel of a non-mean kind with fewer samples than parameters falls
straight back to the mean strategy when solved: `solve` returns exactly the
fallback state, which is solved, re-associated to mean, and carries the
mean-fit parameters computed from whatever samples are available. -/
theorem solve_sample_deficit_falls_back (cf : Nat → Option (List ℝ))
    (la : PanelKind → List Point → Except LinAlgFail (List ℝ))
    (p : BasePanel) (hk : p.assoc ≠ PanelKind.mean)
    (hlen : p.samples.length < npar p.assoc) :
    solve cf la p = fallbackSolve p
    ∧ (solve cf la p).solved = true
    ∧ (solve cf la p).assoc = PanelKind.mean
    ∧ (solve cf la p).par
        = some [if 0 < p.samples.length then npMeanSamples p.samples else 0] := by
  have h := solve_of_deficit cf la p hlen
  refine ⟨h, ?_, ?_, ?_⟩ <;> rw [h] <;> unfold fallbackSolve
  · exact solveMean_solved _
  · rw [solveMean_assoc]
  · rw [solveMean_par]

/-- Witness for C4 at the rigid panel holding two samples. -/
theorem solve_sample_deficit_falls_back_witness :
    solve cfFail laOk deficitPanel = fallbackSolve deficitPanel
    ∧ (solve cfFail laOk deficitPanel).solved = true
    ∧ (solve cfFail laOk deficitPanel).assoc = PanelKind.mean :=
  have h := solve_sample_deficit_falls_back cfFail laOk deficitPanel
    (by simp [deficitPanel, addSample, mkPanel])
    (by simp [deficitPanel, addSample, mkPanel, npar])
  ⟨h.1, h.2.1, h.2.2.1⟩

/-- C2 counterexample: an xyparaboloid panel with exactly `npar` samples on
which every `curve_fit` tier fails is NOT fallen back to mean by `solve`; it
comes out with `solved = false` and no parameters, refuting the claim that
exhausted nonlinear retries end in the mean fallback with `solved = true`. -/
theorem solve_scipy_exhausted_cex :
    (solve cfFail laOk stuckPanel).solved = false
    ∧ (solve cfFail laOk stuckPanel).par = none := by
  have h : solve cfFail laOk stuckPanel = stuckPanel := by
    unfold solve
    have hlen : ¬ stuckPanel.samples.length < npar stuckPanel.assoc := by
      simp [stuckPanel, addSample, mkPanel, npar]
    simp only [hlen, if_false]
    have hsub : solveSub cfFail laOk stuckPanel = .ok stuckPanel := by
      show Except.ok (solveScipy cfFail stuckPanel) = _
      unfold solveScipy
      rfl
    rw [hsub]
  rw [h]
  exact ⟨rfl, rfl⟩

/-- C2 (amended): when a scipy-kind panel has at least `npar` samples and the
bounded nonlinear solve fails at all three escalating `maxfev` tiers,
`solve()` returns the panel completely unchanged — no mean fallback happens,
`solved` stays false and the parameters stay unset; the mean fallback is
reserved for sample deficits and linear-algebra errors. -/
theorem solve_scipy_exhausted_leaves_unchanged (cf : Nat → Option (List ℝ))
    (la : PanelKind → List Point → Except LinAlgFail (List ℝ))
    (p : BasePanel) (hk : isScipyKind p.assoc = true)
    (hlen : ¬ p.samples.length < npar p.assoc)
    (h1 : cf 100000 = none) (h2 : cf 1000000 = none)
    (h3 : cf 10000000 = none) :
    solve cf la p = p := by
  have hs : solveScipy cf p = p := by
    unfold solveScipy
    have : maxfevs.findSome? cf = none := by
      simp [maxfevs, List.findSome?, h1, h2, h3]
    rw [this]
  unfold solve
  simp only [hlen, if_false]
  rcases ha : p.assoc with _ | _ | _ | _ | _ | _ | _ <;>
    simp [isScipyKind, ha] at hk <;>
    simp [solveSub, ha, hs]

/-- Witness for C2 at the three-sample xyparaboloid panel and the
never-converging oracle. -/
theorem solve_scipy_exhausted_leaves_unchanged_witness :
    solve cfFail laOk stuckPanel = stuckPanel :=
  solve_scipy_exhausted_leaves_unchanged cfFail laOk stuckPanel
    (by simp [stuckPanel, addSample, mkPanel, isScipyKind])
    (by simp [stuckPanel, addSample, mkPanel, npar])
    rfl rfl rfl

theorem solveMean_margins (p : BasePanel) (M : List Point) :
    solveMean { p with margins := M } = { solveMean p with margins := M } := by
  unfold solveMean
  by_cases h : 0 < p.samples.length <;> simp [h]

theorem fallbackSolve_margins (p : BasePanel) (M : List Point) :
    fallbackSolve { p with margins := M }
      = { fallbackSolve p with margins := M } := by
  unfold fallbackSolve
  exact solveMean_margins { p with assoc := .mean } M

theorem solveScipy_margins (cf : Nat → Option (List ℝ))
    (p : BasePanel) (M : List Point) :
    solveScipy cf { p with margins := M }
      = { solveScipy cf p with margins := M } := by
  unfold solveScipy
  rcases h : maxfevs.findSome? cf with _ | pars <;> rfl

theorem solveSub_margins (cf : Nat → Option (List ℝ))
    (la : PanelKind → List Point → Except LinAlgFail (List ℝ))
    (p : BasePanel) (M : List Point) :
    solveSub cf la { p with margins := M }
      = Except.map (fun q => ({ q with margins := M } : BasePanel))
          (solveSub cf la p) := by
  obtain ⟨k, a, c, z, S, mg, pr, sv⟩ := p
  unfold solveSub
  rcases a with _ | _ | _ | _ | _ | _ | _
  · rcases hla : la PanelKind.rigid S with e | pars <;>
      simp [hla, Except.map]
  · unfold solveMean
    by_cases h : 0 < S.length <;> simp [h, Except.map]
  · unfold solveScipy
    rcases h : maxfevs.findSome? cf with _ | pars <;>
      simp [h, Except.map]
  · unfold solveScipy
    rcases h : maxfevs.findSome? cf with _ | pars <;>
      simp [h, Except.map]
  · unfold solveScipy
    rcases h : maxfevs.findSome? cf with _ | pars <;>
      simp [h, Except.map]
  · rcases hla : la PanelKind.lstsqr S with e | pars <;>
      simp [hla, Except.map]
  · rcases hla : la PanelKind.colstsq S with e | pars <;>
      simp [hla, Except.map]

theorem solve_margins_irrelevant (cf : Nat → Option (List ℝ))
    (la : PanelKind → List Point → Except LinAlgFail (List ℝ))
    (p : BasePanel) (M : List Point) :
    solve cf la { p with margins := M }
      = { solve cf la p with margins := M } := by
  unfold solve
  simp only [show ({ p with margins := M } : BasePanel).samples = p.samples
    from rfl, show ({ p with margins := M } : BasePanel).assoc = p.assoc
    from rfl]
  by_cases h : p.samples.length < npar p.assoc
  · simp only [h, if_true]
    exact fallbackSolve_margins p M
  · simp only [h, if_false]
    rw [solveSub_margins]
    rcases hs : solveSub cf la p with e | q
    · simp only [hs, Except.map]
      exact fallbackSolve_margins p M
    · simp only [hs, Except.map]

/-- C8: on a solved panel `get_corrections` returns one
`(pixelX, pixelY, corr_point(x, y))` triple for every collected point, the
fit samples first and the margin points after them, so the output length is
`len(samples) + len(margins)`; an unsolved panel raises instead; and margin
points never influence any `solve` outcome — solving a panel with any margin
list yields the same fitted state up to that margin list. -/
theorem get_corrections_covers_samples_and_margins
    (cf : Nat → Option (List ℝ))
    (la : PanelKind → List Point → Except LinAlgFail (List ℝ))
    (p q : BasePanel) (hp : p.solved = true) (hq : q.solved = false) :
    getCorrections p = Except.ok ((p.samples ++ p.margins).map
        (fun s => (s.ix, s.iy, corrPoint p s.x s.y)))
    ∧ (∀ cs, getCorrections p = Except.ok cs →
        cs.length = p.samples.length + p.margins.length)
    ∧ getCorrections q
        = Except.error "Cannot correct a panel that is not solved"
    ∧ (∀ (r : BasePanel) (M : List Point),
        solve cf la { r with margins := M }
          = { solve cf la r with margins := M }) := by
  refine ⟨?_, ?_, ?_, fun r M => solve_margins_irrelevant cf la r M⟩
  · unfold getCorrections
    simp [hp]
  · intro cs hcs
    unfold getCorrections at hcs
    simp [hp] at hcs
    simp [← hcs]
  · unfold getCorrections
    simp [hq]

/-- Witness for C8: a solved empty mean panel yields the empty correction
list and the fresh panel raises. -/
theorem get_corrections_covers_samples_and_margins_witness :
    getCorrections (solveMean (mkPanel .mean (0, 0) 0)) = Except.ok []
    ∧ getCorrections (mkPanel .mean (0, 0) 0)
        = Except.error "Cannot correct a panel that is not solved" := by
  have h := get_corrections_covers_samples_and_margins cfFail laOk
    (solveMean (mkPanel .mean (0, 0) 0)) (mkPanel .mean (0, 0) 0)
    (solveMean_solved _) rfl
  refine ⟨?_, h.2.2.1⟩
  rw [h.1]
  rfl

theorem getCorrections_error_msg (p : BasePanel) (msg : String)
    (h : getCorrections p = Except.error msg) :
    msg = "Cannot correct a panel that is not solved" := by
  unfold getCorrections at h
  by_cases hs : p.solved = false
  · rw [if_pos hs] at h
    injection h with h2
    exact h2.symm
  · rw [if_neg hs] at h
    simp at h

theorem gatherCorrections_error_msg (l : List BasePanel) (e : String)
    (h : gatherCorrections l = Except.error e) :
    e = "Cannot correct a panel that is not solved" := by
  induction l with
  | nil => simp [gatherCorrections] at h
  | cons p ps ih =>
    unfold gatherCorrections at h
    rcases hp : getCorrections p with msg | c
    · simp only [hp] at h
      injection h with h2
      rw [h2] at hp
      exact getCorrections_error_msg p e hp
    · simp only [hp] at h
      rcases hg : gatherCorrections ps with msg2 | cs
      · simp only [hg] at h
        injection h with h2
        rw [h2] at hg
        exact ih hg
      · simp only [hg] at h
        simp at h

/-- C9: calling `correct_surface` on a surface whose panels have not been
fitted raises exactly the unsolved-surface error (so no correction or
residual array is produced); `fit_surface` marks the surface solved; and on
any surface marked solved `correct_surface` never raises the
unsolved-surface error — it proceeds past the guard. -/
theorem correct_surface_sequencing (cf : Nat → Option (List ℝ))
    (la : PanelKind → List Point → Except LinAlgFail (List ℝ))
    (s t : SurfaceState) (hs : s.solved = false) (ht : t.solved = true) :
    correctSurface s = Except.error unsolvedSurfaceMsg
    ∧ (fitSurface cf la s).solved = true
    ∧ correctSurface t ≠ Except.error unsolvedSurfaceMsg := by
  refine ⟨by unfold correctSurface; simp [hs], rfl, ?_⟩
  unfold correctSurface
  simp only [ht]
  rcases hg : gatherCorrections t.panels with msg | cs
  · have hmsg := gatherCorrections_error_msg t.panels msg hg
    simp [hg, hmsg, unsolvedSurfaceMsg]
  · simp [hg]

/-- Witness for C9 at the fresh (unsolved) and fitted (solved) surface
states. -/
theorem correct_surface_sequencing_witness :
    correctSurface freshSurface = Except.error unsolvedSurfaceMsg
    ∧ (fitSurface cfFail laOk freshSurface).solved = true
    ∧ correctSurface fittedSurface ≠ Except.error unsolvedSurfaceMsg :=
  correct_surface_sequencing cfFail laOk freshSurface fittedSurface rfl rfl

/-- C6 (amended): the ring mask holds at a pixel iff the amplitude clears the
cutoff level, the radius lies strictly between the inner and outer limits
(boundary radii are excluded, since the source tests `rad > inlim` and
`rad < oulim`), and the deviation entry is not NaN. -/
theorem build_ring_mask_iff (cut inlim oulim : ℝ) (px : Pixel) :
    buildRingMask cut inlim oulim px = true ↔
      (cut ≤ px.amp ∧ inlim < px.rad ∧ px.rad < oulim
        ∧ px.devIsNaN = false) := by
  obtain ⟨a, r, n⟩ := px
  simp only [buildRingMask]
  rcases n <;> by_cases h1 : a < cut <;> by_cases h2 : r > inlim <;>
    by_cases h3 : r < oulim <;>
    simp_all [not_lt] <;> tauto

/-- C6 counterexample: a pixel sitting exactly on the inner-limit radius with
ample amplitude and a valid deviation is excluded by the code mask although
the claimed boundary-inclusive predicate accepts it. -/
theorem build_ring_mask_boundary_cex :
    buildRingMask 0 1 2 ⟨1, 1, false⟩ = false
    ∧ specMask 0 1 2 ⟨1, 1, false⟩ := by
  constructor
  · norm_num [buildRingMask]
  · exact ⟨by norm_num, le_refl 1, by norm_num, rfl⟩

/-- C3 (amended): the phase-to-deviation conversion multiplies each phase by
the factor `(wavelength/(2π·4·focus)) · sqrt(radius² + 4·focus²)` — note
`2π`, not `4π`, and `4·focus²`, not `(4·focus)²` — and the
deviation-to-phase conversion divides by exactly the same factor. -/
theorem phase_deviation_conversion_formulas
    (wavel focus rad phase dev : ℝ) :
    phaseToDeviation wavel focus rad phase
      = convFactor wavel focus rad * phase
    ∧ deviationToPhase wavel focus rad dev = dev / convFactor wavel focus rad
    ∧ convFactor wavel focus rad
      = wavel / (2 * Real.pi * (4 * focus))
          * Real.sqrt (rad ^ 2 + 4 * focus ^ 2) := by
  refine ⟨?_, rfl, ?_⟩
  · unfold phaseToDeviation convFactor
    ring
  · unfold convFactor twopi
    ring

/-- C3 counterexample: at wavelength 1, focal length 1, radius 2 and phase 1
the code conversion yields `sqrt 8 / (8π)` while the claimed formula yields
`sqrt 20 / (16π)`, and these differ. -/
theorem phase_to_deviation_spec_formula_cex :
    phaseToDeviation 1 1 2 1 ≠ specPhaseToDeviation 1 1 2 1 := by
  have hpi := Real.pi_pos
  have hpne : Real.pi ≠ 0 := Real.pi_ne_zero
  have h8 : (9 / 4 : ℝ) < Real.sqrt 8 := by
    rw [show (8 : ℝ) = 8 from rfl, Real.lt_sqrt (by norm_num)]
    norm_num
  have h20 : Real.sqrt 20 < 9 / 2 := by
    rw [Real.sqrt_lt' (by norm_num)]
    norm_num
  unfold phaseToDeviation specPhaseToDeviation twopi
  rw [show ((2 : ℝ) ^ 2 + 4 * 1 ^ 2) = 8 by norm_num,
    show ((2 : ℝ) ^ 2 + (4 * 1) ^ 2) = 20 by norm_num]
  intro h
  field_simp at h
  nlinarith [h8, h20, hpi, Real.sqrt_nonneg 8, Real.sqrt_nonneg 20]

/-- C7 (amended): for every nonzero wavelength and nonzero focal length the
phase-to-deviation and deviation-to-phase conversions are exact inverses at
every radius and phase. -/
theorem phase_deviation_round_trip (wavel focus rad phase : ℝ)
    (hw : wavel ≠ 0) (hf : focus ≠ 0) :
    deviationToPhase wavel focus rad (phaseToDeviation wavel focus rad phase)
      = phase := by
  have hq : (0 : ℝ) < rad ^ 2 + 4 * focus ^ 2 := by
    nlinarith [sq_nonneg rad, pow_two_pos_of_ne_zero hf]
  have hs : 0 < Real.sqrt (rad ^ 2 + 4 * focus ^ 2) := Real.sqrt_pos.mpr hq
  have hpne : Real.pi ≠ 0 := Real.pi_ne_zero
  unfold deviationToPhase phaseToDeviation twopi
  field_simp
  ring

/-- Witness for C7 at wavelength 1, focal length 1, radius 0, phase 1. -/
theorem phase_deviation_round_trip_witness :
    deviationToPhase 1 1 0 (phaseToDeviation 1 1 0 1) = 1 :=
  phase_deviation_round_trip 1 1 0 1 one_ne_zero one_ne_zero

/-- C7 counterexample: at the finite wavelength 0 the round trip does not
recover the input phase 1 — the conversion factor degenerates (in floating
point the division produces NaN; in the real-number model it produces 0), so
the claim fails for that finite wavelength/focus/radius combination. -/
theorem round_trip_zero_wavelength_cex :
    deviationToPhase 0 1 0 (phaseToDeviation 0 1 0 1) = 0
    ∧ (0 : ℝ) ≠ 1 := by
  constructor
  · unfold phaseToDeviation deviationToPhase twopi
    norm_num
  · norm_num

theorem phasorSum_re (phases : List ℝ) :
    (phasorSum phases).re = (phases.map Real.cos).sum := by
  induction phases with
  | nil => simp [phasorSum]
  | cons a l ih =>
    simp only [phasorSum, List.map_cons, List.sum_cons, Complex.add_re,
      Complex.exp_ofReal_mul_I_re] at ih ⊢
    rw [ih]

theorem phasorSum_im (phases : List ℝ) :
    (phasorSum phases).im = (phases.map Real.sin).sum := by
  induction phases with
  | nil => simp [phasorSum]
  | cons a l ih =>
    simp only [phasorSum, List.map_cons, List.sum_cons, Complex.add_im,
      Complex.exp_ofReal_mul_I_im] at ih ⊢
    rw [ih]

theorem meanPhasorAbs_eq_complex (phases : List ℝ) :
    meanPhasorAbs phases = Complex.abs (phasorSum phases) / phases.length := by
  unfold meanPhasorAbs
  rw [Complex.abs_apply, Complex.normSq_apply, phasorSum_re, phasorSum_im,
    ← pow_two ((phases.map Real.cos).sum), ← pow_two ((phases.map Real.sin).sum)]

/-- C5 (amended): the pre-decibel actual gain equals the theoretical gain
`4π·(1000·resolution/wavelength)²` scaled by the MAGNITUDE (first power, not
the square) of the mean complex phasor `exp(i·phase)` over the masked
pixels; and `gains` evaluates this once on the input phase, adding a second
evaluation on the residual phase exactly when residuals exist. -/
theorem gains_scale_by_phasor_magnitude (reso wavel : ℝ) (phases : List ℝ)
    (s : SurfaceState) :
    (gainsArray reso wavel phases).1
      = fourpi * (1000 * reso / wavel) ^ 2 * meanPhasorAbs phases
    ∧ meanPhasorAbs phases
      = Complex.abs (phasorSum phases) / phases.length
    ∧ (s.residuals = none →
        gains s = Sum.inl (gainsArray s.reso s.wavel s.phases))
    ∧ (∀ L, s.residuals = some L →
        gains s = Sum.inr (gainsArray s.reso s.wavel s.phases,
          gainsArray s.reso s.wavel s.phaseResiduals)) := by
  refine ⟨?_, meanPhasorAbs_eq_complex phases, ?_, ?_⟩
  · unfold gainsArray meanPhasorAbs
    ring
  · intro h
    unfold gains
    rw [h]
  · intro L h
    unfold gains
    rw [h]

/-- Witness for C5 at the fresh surface (no residuals) and the corrected
surface (residuals present). -/
theorem gains_scale_by_phasor_magnitude_witness :
    gains freshSurface = Sum.inl (gainsArray freshSurface.reso
      freshSurface.wavel freshSurface.phases)
    ∧ gains correctedSurface = Sum.inr ((gainsArray correctedSurface.reso
        correctedSurface.wavel correctedSurface.phases),
        gainsArray correctedSurface.reso correctedSurface.wavel
          correctedSurface.phaseResiduals) :=
  ⟨(gains_scale_by_phasor_magnitude 1 1 [] freshSurface).2.2.1 rfl,
   (gains_scale_by_phasor_magnitude 1 1 [] correctedSurface).2.2.2 [] rfl⟩

/-- C5 counterexample: over the masked phases `0, 0, π` the mean phasor has
magnitude 1/3, and the code gain is `thgain/3`, not the `thgain/9` that the
claimed squared-magnitude scaling would give. -/
theorem gains_squared_magnitude_cex :
    (gainsArray 1 1000 [0, 0, Real.pi]).1
      ≠ (gainsArray 1 1000 [0, 0, Real.pi]).2
          * meanPhasorAbs [0, 0, Real.pi] ^ 2 := by
  have hc : (([0, 0, Real.pi].map Real.cos).sum : ℝ) = 1 := by
    simp [Real.cos_pi]
  have hsn : (([0, 0, Real.pi].map Real.sin).sum : ℝ) = 0 := by
    simp
  unfold gainsArray meanPhasorAbs fourpi
  rw [hc, hsn]
  norm_num [Real.sqrt_one]
  intro h
  nlinarith [Real.pi_pos]

end Astrohack
